import Mathlib

/-!
Verification development for the authentication core of the repository
(user / session service).  The Rust application code is shallowly embedded:
pure control flow becomes Lean functions, the fallible collaborator calls
(repositories, cache, token service, mailer, event bus, crypto) become
oracle fields of an environment record returning `Except`, and the order of
collaborator calls is recorded as an explicit list of effects where a claim
is about ordering or side effects.
-/

/-- Error taxonomy of the application layer (`result::Error` /
`user::error::Error` in the source): `NotFound`, `AlreadyExists`,
`WrongCredentials`, `Unauthorized`, `InvalidToken`, `WrongToken` and the
catch-all `Debug`. -/
inductive Err where
  | notFound
  | alreadyExists
  | wrongCredentials
  | unauthorized
  | invalidToken
  | wrongToken
  | debug
deriving DecidableEq

/-- `Error::not_found` from the source: true exactly on the `NotFound`
variant. -/
def Err.isNotFound : Err → Bool
  | .notFound => true
  | _ => false

/-- `TokenKind` (`token::domain::TokenKind`): `Session`, `Verification`,
`Reset`. -/
inductive TokenKind where
  | session
  | verification
  | reset
deriving DecidableEq

/-- `TokenKind::is_session`. -/
def TokenKind.isSession : TokenKind → Bool
  | .session => true
  | _ => false

/-- `TokenKind::is_verification`. -/
def TokenKind.isVerification : TokenKind → Bool
  | .verification => true
  | _ => false

/-- Rust's `Result::is_ok_and`: true when the value is `Ok` and the
predicate holds on its content. -/
def Except.isOkAnd : Except ε α → (α → Bool) → Bool
  | .ok a, f => f a
  | .error _, _ => false

/-- Credentials of a stored user as read by `session::application::login`:
the password hash is optional (`user.credentials.password` is an `Option`
in the source, mapped with `unwrap_or_default`). -/
structure SessCredentials where
  email : String
  password : Option String
deriving DecidableEq

/-- The user record found by the session login flow. -/
structure SessUser where
  id : Int
  credentials : SessCredentials
deriving DecidableEq

/-- A TOTP secret as returned by
`secret_repo.find_by_owner_and_kind(user.id, SecretKind::Totp)`; only its
`data()` is consumed by the flow. -/
structure TotpSecret where
  data : String
deriving DecidableEq

/-- A decoded token as used by `logout_strategy` and produced by
`token_app.generate`: `jti`, `sub` and the kind field `knd`. -/
structure SessionToken where
  jti : String
  sub : String
  knd : TokenKind
deriving DecidableEq

/-- Environment of collaborators for `SessionApplication::login` /
`logout_strategy`.  Every field stands for one fallible collaborator call
of the source; the collaborators themselves (user repository, secret
repository, token application, crypto) live outside the embedded file and
are therefore oracles. -/
structure LoginEnv where
  /-- `Email::REGEX.is_match(ident)`. -/
  emailMatches : String → Bool
  /-- `ident.try_into()` producing an `Email`; its error propagates raw. -/
  emailTryFrom : String → Except Err String
  /-- `user_repo.find_by_email`. -/
  findByEmail : String → Except Err SessUser
  /-- `user_repo.find_by_name`. -/
  findByName : String → Except Err SessUser
  /-- `Password::try_from(pwd)`. -/
  passwordTryFrom : String → Except Err String
  /-- `Password::digest(self, sufix)`: the hash of the password with the
  pepper suffix appended. -/
  digest : String → String → String
  /-- The process-global `pwd_sufix` pepper. -/
  pwdSufix : String
  /-- `secret_repo.find_by_owner_and_kind(user.id, SecretKind::Totp)`. -/
  findSecret : Int → Except Err TotpSecret
  /-- `crypto::verify_totp(secret.data(), totp)`. -/
  verifyTotp : String → String → Except Err Unit
  /-- `token_app.generate(TokenKind::Session, &user.id.to_string())`. -/
  generate : TokenKind → String → Except Err SessionToken
  /-- `token_app.store(&token)`. -/
  store : SessionToken → Except Err Unit
  /-- `token_app.sign(&token)`. -/
  sign : SessionToken → Except Err String
  /-- `token_app.decode(token)` (used by `logout_strategy`). -/
  decode : String → Except Err SessionToken
  /-- `token_app.revoke(&token.jti)` (used by `logout_strategy`). -/
  revokeJti : String → Except Err Unit

/-- The user-lookup block of `login`: by email when `ident` matches the
email regex (the `Email` conversion error propagating unmapped), otherwise
by name; any lookup error is folded to `WrongCredentials`. -/
def lookupUser (env : LoginEnv) (ident : String) : Except Err SessUser :=
  match (if env.emailMatches ident then
           (env.emailTryFrom ident).map (fun em => env.findByEmail em)
         else .ok (env.findByName ident)) with
  | .error e => .error e
  | .ok res =>
    match res with
    | .error _ => .error Err.wrongCredentials
    | .ok user => .ok user

/-- The password condition of `login`, exactly as the source writes it:
`Password::try_from(pwd).map(|p| p.digest(sufix)).is_ok_and(|d|
user.credentials.password.map(|up| up == d).unwrap_or_default())`.
Note that `login` returns `WrongCredentials` when this is TRUE. -/
def passwordRejects (env : LoginEnv) (user : SessUser) (pwd : String) : Bool :=
  Except.isOkAnd ((env.passwordTryFrom pwd).map (fun p => env.digest p env.pwdSufix))
    (fun d => (user.credentials.password.map (fun up => up == d)).getD false)

/-- The TOTP chain of `login`:
`find_by_owner_and_kind(..).and_then(|s| verify_totp(s.data(), totp))`,
before the `map_err(|_| Unauthorized)`. -/
def totpCheck (env : LoginEnv) (uid : Int) (totp : String) : Except Err Unit :=
  match env.findSecret uid with
  | .error e => .error e
  | .ok secret => env.verifyTotp secret.data totp

/-- `SessionApplication::login` from `src/session/application.rs`:
lookup, password condition (inverted in the source: a successful digest
comparison returns `WrongCredentials`), TOTP chain folded to
`Unauthorized`, then generate, store and sign a `Session` token. -/
def login (env : LoginEnv) (ident pwd totp : String) : Except Err String :=
  match lookupUser env ident with
  | .error e => .error e
  | .ok user =>
    if passwordRejects env user pwd then .error Err.wrongCredentials
    else
      match totpCheck env user.id totp with
      | .error _ => .error Err.unauthorized
      | .ok _ =>
        match env.generate TokenKind.session (toString user.id) with
        | .error e => .error e
        | .ok token =>
          match env.store token with
          | .error e => .error e
          | .ok _ => env.sign token

/-- A concrete environment mirroring the seed scenario of the source's own
tests (`login_by_email_should_not_fail`, `login_wrong_password_should_fail`):
user `123` is stored with the digest of `abcABC123&` plus the pepper
`::test`, the digest is modelled as plain concatenation, and the token
pipeline succeeds. -/
def envSeed : LoginEnv where
  emailMatches := fun _ => true
  emailTryFrom := fun s => .ok s
  findByEmail := fun _ =>
    .ok { id := 123, credentials := { email := "username@server.domain", password := some "abcABC123&::test" } }
  findByName := fun _ =>
    .ok { id := 123, credentials := { email := "username@server.domain", password := some "abcABC123&::test" } }
  passwordTryFrom := fun s => .ok s
  digest := fun p sufix => p ++ sufix
  pwdSufix := "::test"
  findSecret := fun _ => .ok { data := "secret_data" }
  verifyTotp := fun _ _ => .ok ()
  generate := fun knd _ => .ok { jti := "jti1", sub := "123", knd := knd }
  store := fun _ => .ok ()
  sign := fun _ => .ok "signed.jwt"
  decode := fun _ => .error Err.invalidToken
  revokeJti := fun _ => .ok ()

/-- Like `envSeed` but the stored user has no password hash and the secret
repository reports `NotFound` for the TOTP secret (the setup of the
source's test `login_by_email_should_not_fail`, whose secret-repository
mock returns `Err(Error::NotFound)`). -/
def envNoSecret : LoginEnv where
  emailMatches := fun _ => true
  emailTryFrom := fun s => .ok s
  findByEmail := fun _ =>
    .ok { id := 123, credentials := { email := "username@server.domain", password := none } }
  findByName := fun _ =>
    .ok { id := 123, credentials := { email := "username@server.domain", password := none } }
  passwordTryFrom := fun s => .ok s
  digest := fun p sufix => p ++ sufix
  pwdSufix := "::test"
  findSecret := fun _ => .error Err.notFound
  verifyTotp := fun _ _ => .ok ()
  generate := fun knd _ => .ok { jti := "jti1", sub := "123", knd := knd }
  store := fun _ => .ok ()
  sign := fun _ => .ok "signed.jwt"
  decode := fun _ => .error Err.invalidToken
  revokeJti := fun _ => .ok ()

/-- MFA methods (`mfa::domain::MfaMethod`); only TOTP matters to the
embedded flows. -/
inductive MfaMethod where
  | totp
deriving DecidableEq

/-- Token payload (`token::domain::Payload`): kind, subject and the
configured timeout (TTL) in seconds. -/
structure Payload where
  kind : TokenKind
  subject : String
  timeout : Nat
deriving DecidableEq

/-- `token::domain::Claims`: the signed token string together with its
payload. -/
structure Claims where
  token : String
  payload : Payload
deriving DecidableEq

/-- `user::domain::Credentials` as built by `verify_credentials`: a
(validated) email and a password hash. -/
structure Credentials where
  email : String
  password : String
deriving DecidableEq

/-- `user::domain::User` of the user-application flows: id, credentials
and preferences (the optional MFA method). -/
structure UserG where
  id : Int
  credentials : Credentials
  preferences : Option MfaMethod
deriving DecidableEq

/-- `Credentials::into::<User>()`: a user with the zero id and default
preferences built from pending credentials (the id is assigned later by
`user_repo.create`). -/
def Credentials.intoUser (c : Credentials) : UserG :=
  { id := 0, credentials := c, preferences := none }

/-- One collaborator call of a user-application flow; traces of these
record which effects a run performed and in which order. -/
inductive Effect where
  | findByEmail (email : String)
  | hashPassword
  | issueToken (kind : TokenKind) (sub : String)
  | cacheSave (key : String) (ttl : Nat)
  | sendMail (email : String) (token : String)
  | claimsTok (token : String)
  | cacheFind (key : String)
  | revokeTok
  | createUser
  | emitUserCreated
  | findUserById (id : Int)
  | mfaEnable
  | mfaVerify
  | mfaDisable
  | saveUser
  | revokeJti (jti : String)
deriving DecidableEq

/-- `x` occurs at a strictly earlier position than `y` in `l`. -/
def appearsBefore (x y : α) (l : List α) : Prop :=
  ∃ i j, i < j ∧ l.get? i = some x ∧ l.get? j = some y

/-- Environment of collaborators for the `UserApplication` flows
(`verify_credentials`, `signup_with_token`, `signup`,
`enable_mfa_with_token`, `disable_mfa_with_token`).  Each field embeds one
fallible collaborator call of the source. -/
structure UserAppEnv where
  /-- `user_repo.find_by_email`. -/
  findByEmail : String → Except Err UserG
  /-- `Salt::with_length(self.hash_length)`. -/
  newSalt : Except Err String
  /-- `PasswordHash::with_salt(&password, &salt)`. -/
  withSalt : String → String → Except Err String
  /-- `credentials.hash().to_string()`: the content fingerprint of the
  credentials, used as the cache key. -/
  credsHash : Credentials → String
  /-- `token_srv.issue(kind, subject)`. -/
  issue : TokenKind → String → Except Err Claims
  /-- `cache.save(key, credentials, ttl)`. -/
  cacheSaveCreds : String → Credentials → Nat → Except Err Unit
  /-- `mail_srv.send_credentials_verification_email(email, token)`. -/
  sendMail : String → String → Except Err Unit
  /-- `token_srv.claims(token)`. -/
  claims : String → Except Err Claims
  /-- `cache.find(key)` returning pending credentials. -/
  cacheFindCreds : String → Except Err Credentials
  /-- `token_srv.revoke(&claims)`. -/
  revoke : Claims → Except Err Unit
  /-- `user_repo.create(&mut user)`; returns the assigned id. -/
  createUser : UserG → Except Err Int
  /-- `event_srv.emit_user_created(&user)`. -/
  emitUserCreated : UserG → Except Err Unit
  /-- `user_repo.find(user_id)`. -/
  findUser : Int → Except Err UserG
  /-- `user.password_matches(&password)`. -/
  passwordMatches : UserG → String → Except Err Bool
  /-- `multi_factor_srv.enable(&user, otp)`. -/
  mfaEnable : UserG → Option String → Except Err Unit
  /-- `multi_factor_srv.verify(&user, otp)`. -/
  mfaVerify : UserG → Option String → Except Err Unit
  /-- `multi_factor_srv.disable(&user, otp)`. -/
  mfaDisable : UserG → Option String → Except Err Unit
  /-- `user_repo.save(&user)`. -/
  saveUser : UserG → Except Err Unit

/-- The salt-and-hash step of `verify_credentials`:
`Salt::with_length(self.hash_length)?` then
`PasswordHash::with_salt(&password, &salt)?`. -/
def hashPwd (env : UserAppEnv) (pwd : String) : Except Err String :=
  match env.newSalt with
  | .error e => .error e
  | .ok salt => env.withSalt pwd salt

/-- `UserApplication::verify_credentials` from
`src/user/application/signup.rs`, with its trace of collaborator calls:
lookup by email (`Ok` means `AlreadyExists`, a non-`NotFound` error
propagates), hash the password, issue a `Verification` token for the
credentials fingerprint, save the pending credentials in the cache under
that fingerprint with the issued payload's timeout, and send the
verification mail. -/
def verifyCredentials (env : UserAppEnv) (email pwd : String) :
    Except Err Unit × List Effect :=
  match env.findByEmail email with
  | .ok _ => (.error Err.alreadyExists, [Effect.findByEmail email])
  | .error err =>
    if err.isNotFound = false then (.error err, [Effect.findByEmail email])
    else
      match hashPwd env pwd with
      | .error e => (.error e, [Effect.findByEmail email, Effect.hashPassword])
      | .ok pwdHash =>
        match env.issue TokenKind.verification (env.credsHash { email := email, password := pwdHash }) with
        | .error e =>
          (.error e,
           [Effect.findByEmail email, Effect.hashPassword,
            Effect.issueToken TokenKind.verification (env.credsHash { email := email, password := pwdHash })])
        | .ok claims =>
          match env.cacheSaveCreds (env.credsHash { email := email, password := pwdHash })
              { email := email, password := pwdHash } claims.payload.timeout with
          | .error e =>
            (.error e,
             [Effect.findByEmail email, Effect.hashPassword,
              Effect.issueToken TokenKind.verification (env.credsHash { email := email, password := pwdHash }),
              Effect.cacheSave (env.credsHash { email := email, password := pwdHash }) claims.payload.timeout])
          | .ok _ =>
            (env.sendMail email claims.token,
             [Effect.findByEmail email, Effect.hashPassword,
              Effect.issueToken TokenKind.verification (env.credsHash { email := email, password := pwdHash }),
              Effect.cacheSave (env.credsHash { email := email, password := pwdHash }) claims.payload.timeout,
              Effect.sendMail email claims.token])

/-- `UserApplication::signup`: create the user (the repository assigns the
id), emit the `user_created` event, then issue a `Session` token for the
new id. -/
def signup (env : UserAppEnv) (user : UserG) : Except Err Claims × List Effect :=
  match env.createUser user with
  | .error e => (.error e, [Effect.createUser])
  | .ok uid =>
    match env.emitUserCreated { user with id := uid } with
    | .error e => (.error e, [Effect.createUser, Effect.emitUserCreated])
    | .ok _ =>
      (env.issue TokenKind.session (toString uid),
       [Effect.createUser, Effect.emitUserCreated, Effect.issueToken TokenKind.session (toString uid)])

/-- `UserApplication::signup_with_token`: resolve the claims, require the
`Verification` kind (`WrongToken` otherwise), read the pending credentials
from the cache, revoke the token, then perform `signup`. -/
def signupWithToken (env : UserAppEnv) (token : String) :
    Except Err Claims × List Effect :=
  match env.claims token with
  | .error e => (.error e, [Effect.claimsTok token])
  | .ok claims =>
    if claims.payload.kind.isVerification then
      match env.cacheFindCreds claims.payload.subject with
      | .error e => (.error e, [Effect.claimsTok token, Effect.cacheFind claims.payload.subject])
      | .ok creds =>
        match env.revoke claims with
        | .error e =>
          (.error e,
           [Effect.claimsTok token, Effect.cacheFind claims.payload.subject, Effect.revokeTok])
        | .ok _ =>
          ((signup env creds.intoUser).1,
           [Effect.claimsTok token, Effect.cacheFind claims.payload.subject, Effect.revokeTok] ++
             (signup env creds.intoUser).2)
    else (.error Err.wrongToken, [Effect.claimsTok token])

/-- `UserApplication::enable_mfa` from `src/user/application/mfa.rs`: find
the user, check the password (`WrongCredentials` on mismatch), set the MFA
preference, enable the factor, persist the user. -/
def enableMfa (env : UserAppEnv) (uid : Int) (method : MfaMethod)
    (password : String) (otp : Option String) : Except Err Unit × List Effect :=
  match env.findUser uid with
  | .error e => (.error e, [Effect.findUserById uid])
  | .ok user =>
    match env.passwordMatches user password with
    | .error e => (.error e, [Effect.findUserById uid])
    | .ok b =>
      if b then
        match env.mfaEnable { user with preferences := some method } otp with
        | .error e => (.error e, [Effect.findUserById uid, Effect.mfaEnable])
        | .ok _ =>
          (env.saveUser { user with preferences := some method },
           [Effect.findUserById uid, Effect.mfaEnable, Effect.saveUser])
      else (.error Err.wrongCredentials, [Effect.findUserById uid])

/-- `UserApplication::enable_mfa_with_token`: resolve the claims, require
the `Session` kind (`WrongToken` otherwise), parse the subject as the user
id (a parse failure is folded by `on_error!` into the generic error), then
`enable_mfa`. -/
def enableMfaWithToken (env : UserAppEnv) (token : String) (method : MfaMethod)
    (password : String) (otp : Option String) : Except Err Unit × List Effect :=
  match env.claims token with
  | .error e => (.error e, [Effect.claimsTok token])
  | .ok claims =>
    if claims.payload.kind.isSession then
      match claims.payload.subject.toInt? with
      | none => (.error Err.debug, [Effect.claimsTok token])
      | some uid =>
        ((enableMfa env uid method password otp).1,
         Effect.claimsTok token :: (enableMfa env uid method password otp).2)
    else (.error Err.wrongToken, [Effect.claimsTok token])

/-- `UserApplication::disable_mfa`: find the user, check the password,
verify the factor, disable it, clear the preference, persist the user. -/
def disableMfa (env : UserAppEnv) (uid : Int) (_method : MfaMethod)
    (password : String) (otp : Option String) : Except Err Unit × List Effect :=
  match env.findUser uid with
  | .error e => (.error e, [Effect.findUserById uid])
  | .ok user =>
    match env.passwordMatches user password with
    | .error e => (.error e, [Effect.findUserById uid])
    | .ok b =>
      if b then
        match env.mfaVerify user otp with
        | .error e => (.error e, [Effect.findUserById uid, Effect.mfaVerify])
        | .ok _ =>
          match env.mfaDisable user otp with
          | .error e => (.error e, [Effect.findUserById uid, Effect.mfaVerify, Effect.mfaDisable])
          | .ok _ =>
            (env.saveUser { user with preferences := none },
             [Effect.findUserById uid, Effect.mfaVerify, Effect.mfaDisable, Effect.saveUser])
      else (.error Err.wrongCredentials, [Effect.findUserById uid])

/-- `UserApplication::disable_mfa_with_token`: resolve the claims, require
the `Session` kind (`WrongToken` otherwise), parse the subject as the user
id, then `disable_mfa`. -/
def disableMfaWithToken (env : UserAppEnv) (token : String) (method : MfaMethod)
    (password : String) (otp : Option String) : Except Err Unit × List Effect :=
  match env.claims token with
  | .error e => (.error e, [Effect.claimsTok token])
  | .ok claims =>
    if claims.payload.kind.isSession then
      match claims.payload.subject.toInt? with
      | none => (.error Err.debug, [Effect.claimsTok token])
      | some uid =>
        ((disableMfa env uid method password otp).1,
         Effect.claimsTok token :: (disableMfa env uid method password otp).2)
    else (.error Err.wrongToken, [Effect.claimsTok token])

/-- `logout_strategy` from `src/session/application.rs`: decode the token,
require the `Session` kind (`InvalidToken` otherwise), then revoke the
token's `jti` through the token application.  The trace records the revoke
call. -/
def logoutStrategy (env : LoginEnv) (token : String) :
    Except Err Unit × List Effect :=
  match env.decode token with
  | .error e => (.error e, [])
  | .ok t =>
    if t.knd.isSession then (env.revokeJti t.jti, [Effect.revokeJti t.jti])
    else (.error Err.invalidToken, [])

/-- `envSeed` with the decoder returning a `Verification`-kind token, for
exercising `logout_strategy` on a non-session token. -/
def envLogoutW : LoginEnv :=
  { envSeed with decode := fun _ => .ok { jti := "jti1", sub := "123", knd := TokenKind.verification } }

/-- A user-application environment in which every collaborator succeeds and
the email lookup reports `NotFound` (fresh signup). -/
def envUBase : UserAppEnv where
  findByEmail := fun _ => .error Err.notFound
  newSalt := .ok "salt"
  withSalt := fun p s => .ok (p ++ s)
  credsHash := fun c => c.email ++ c.password
  issue := fun k sub => .ok { token := "tok." ++ sub, payload := { kind := k, subject := sub, timeout := 900 } }
  cacheSaveCreds := fun _ _ _ => .ok ()
  sendMail := fun _ _ => .ok ()
  claims := fun tok => .ok { token := tok, payload := { kind := TokenKind.verification, subject := "fp", timeout := 900 } }
  cacheFindCreds := fun _ => .ok { email := "username@server.domain", password := "hash" }
  revoke := fun _ => .ok ()
  createUser := fun _ => .ok 999
  emitUserCreated := fun _ => .ok ()
  findUser := fun _ => .ok { id := 999, credentials := { email := "username@server.domain", password := "hash" }, preferences := none }
  passwordMatches := fun _ _ => .ok true
  mfaEnable := fun _ _ => .ok ()
  mfaVerify := fun _ _ => .ok ()
  mfaDisable := fun _ _ => .ok ()
  saveUser := fun _ => .ok ()

/-- `envUBase` with a failing token revocation. -/
def envURevokeFail : UserAppEnv :=
  { envUBase with revoke := fun _ => .error Err.invalidToken }

/-- `envUBase` whose token service resolves every token to `Reset`-kind
claims (the wrong kind for both the signup and the MFA flows). -/
def envUWrongKind : UserAppEnv :=
  { envUBase with
      claims := fun tok => .ok { token := tok, payload := { kind := TokenKind.reset, subject := "999", timeout := 900 } } }

/-- `envUBase` whose email lookup finds an existing user (with MFA
enabled, exercising the MFA-opacity part of the lookup dispatch). -/
def envUFound : UserAppEnv :=
  { envUBase with
      findByEmail := fun em =>
        .ok { id := 7, credentials := { email := em, password := "stored" }, preferences := some MfaMethod.totp } }

/-- `envUBase` whose email lookup fails with a non-`NotFound` error. -/
def envUDbgErr : UserAppEnv :=
  { envUBase with findByEmail := fun _ => .error Err.debug }

/-- The character class `[A-Fa-f0-9]` of `REGEX_HASH256` in
`src/transactions/regex.rs`. -/
def isHexDigitChar (c : Char) : Bool :=
  c.isDigit || ('a' ≤ c && c ≤ 'f') || ('A' ≤ c && c ≤ 'F')

/-- The regex engine's word-character predicate, lifted to an optional
character: absent characters (the string edges) count as non-word.  The
word class itself — Unicode `\w` in the regex crate, whose tables live in
the external regex dependency, not in this repository — is kept as the
parameter `w`, like the other external collaborators; everything below
holds for every choice of `w`. -/
def wordOpt (w : Char → Bool) : Option Char → Bool
  | none => false
  | some c => w c

/-- The pattern `\b[A-Fa-f0-9]{64}\b` matches starting at the current
position, for the word class `w`: the next 64 characters exist and are
hex digits, and a word boundary — exactly one of the two neighbouring
sides is a word character, edges counting as non-word — holds both before
and after the run. -/
def hexRunAt (w : Char → Bool) (prev : Option Char) (l : List Char) : Bool :=
  (l.take 64).length == 64 && (l.take 64).all isHexDigitChar &&
    (wordOpt w prev != wordOpt w (l.take 64).head?) &&
    (wordOpt w (l.take 64).getLast? != wordOpt w (l.drop 64).head?)

/-- Unanchored matching of `\b[A-Fa-f0-9]{64}\b`: try every start
position, remembering the previous character for the boundary test. -/
def hashMatchAux (w : Char → Bool) : Option Char → List Char → Bool
  | _, [] => false
  | prev, c :: rest => hexRunAt w prev (c :: rest) || hashMatchAux w (some c) rest

/-- `Regex::new(REGEX_HASH256).is_match(pwd)` for the word class `w`: the
regex `\b[A-Fa-f0-9]{64}\b` matches somewhere in the string. -/
def regexHash256IsMatch (w : Char → Bool) (s : String) : Bool :=
  hashMatchAux w none s.data

/-- `ERR_PWD_FORMAT` from `src/transactions/regex.rs`. -/
def ERR_PWD_FORMAT : String :=
  "The password must contains, at least, an upper and lower case letters, as well as some numbers and special characters"

/-- `check_pwd` from `src/transactions/regex.rs`, for the word class `w`
of the regex engine: errors with `ERR_PWD_FORMAT` when `REGEX_HASH256`
does not match, succeeds otherwise. -/
def check_pwd (w : Char → Bool) (pwd : String) : Except String Unit :=
  if regexHash256IsMatch w pwd then .ok () else .error ERR_PWD_FORMAT

/-- The character preceding a position reached by consuming `pre` after a
position whose own preceding character was `prev`. -/
def lastChar (prev : Option Char) (pre : List Char) : Option Char :=
  match pre.getLast? with
  | some c => some c
  | none => prev

/-- Matching characterised by list decomposition, relative to the
character preceding `l`. -/
def hasRunFrom (w : Char → Bool) (prev : Option Char) (l : List Char) : Prop :=
  ∃ pre run post : List Char, l = pre ++ run ++ post ∧ run.length = 64 ∧
    run.all isHexDigitChar = true ∧
    (wordOpt w (lastChar prev pre) != wordOpt w run.head?) = true ∧
    (wordOpt w run.getLast? != wordOpt w post.head?) = true

/-- The property claimed of `check_pwd`: the string contains a
word-boundary-delimited run of exactly 64 hexadecimal characters — a
64-character all-hex segment with a `\b` boundary, for the word class
`w`, on each side. -/
def containsHash256Run (w : Char → Bool) (s : String) : Prop :=
  ∃ pre run post : List Char, s.data = pre ++ run ++ post ∧ run.length = 64 ∧
    (∀ c ∈ run, isHexDigitChar c = true) ∧
    wordOpt w pre.getLast? ≠ wordOpt w run.head? ∧
    wordOpt w run.getLast? ≠ wordOpt w post.head?

/-- `errors::ALREADY_EXISTS` from `src/constants.rs`. -/
def ALREADY_EXISTS : String := "already exists"

/-- The user stored inside a session (only its email is consulted by the
in-memory repository). -/
structure RepoUser where
  email : String
deriving DecidableEq

/-- `session::domain::Session` as far as the in-memory repository uses
it: the session id and the owning user. -/
structure StoredSession where
  sid : String
  user : RepoUser
deriving DecidableEq

/-- The `all_instances` map of `InMemorySessionRepository`, as an
association list from sid to session (the `RwLock`/`Arc` plumbing is
dropped; lock poisoning is out of the model). -/
abbrev SessionRepo : Type := List (String × StoredSession)

/-- `InMemorySessionRepository::session_has_email`. -/
def sessionHasEmail (sess : StoredSession) (email : String) : Bool :=
  sess.user.email == email

/-- `repo.get(&sid)` on the association list. -/
def repoGet (repo : SessionRepo) (sid : String) : Option StoredSession :=
  (List.find? (fun kv => kv.1 == sid) repo).map (fun kv => kv.2)

/-- The sid produced by the generation loop of `save`: the first candidate
of the random stream `gen` that is not already a key of the map.  The
hypothesis models the loop's termination (the random generator eventually
produces an unused sid). -/
def freshSid (repo : SessionRepo) (gen : Nat → String)
    (hgen : ∃ n, repoGet repo (gen n) = none) : String :=
  gen (Nat.find hgen)

/-- `InMemorySessionRepository::save` from `src/session/framework.rs`:
reject when the incoming sid is already a key or some stored session has
the same user email; otherwise loop the generator for a fresh sid, store
the session under it and return the stored entry. -/
def InMemorySessionRepository.save (repo : SessionRepo) (session : StoredSession)
    (gen : Nat → String) (hgen : ∃ n, repoGet repo (gen n) = none) :
    Except String (String × StoredSession × SessionRepo) :=
  if (repoGet repo session.sid).isSome then .error ALREADY_EXISTS
  else if repo.any (fun kv => sessionHasEmail kv.2 session.user.email) then .error ALREADY_EXISTS
  else
    (fun sid => .ok (sid, { session with sid := sid }, (sid, { session with sid := sid }) :: repo))
      (freshSid repo gen hgen)

/-- The uniqueness invariant of the in-memory repository: no two stored
entries share a key or a user email, and every stored session's sid field
equals its key. -/
def repoInv (repo : SessionRepo) : Prop :=
  List.Pairwise (fun a b => a.1 ≠ b.1 ∧ a.2.user.email ≠ b.2.user.email) repo ∧
  ∀ kv ∈ repo, kv.2.sid = kv.1

/-- A one-entry repository for exercising `save`. -/
def repoW : SessionRepo :=
  [("aaaa", { sid := "aaaa", user := { email := "user1@server.domain" } })]

/-- A fresh session to be saved into `repoW`. -/
def sessW : StoredSession :=
  { sid := "", user := { email := "user2@server.domain" } }

/-- A candidate-sid stream whose first candidate is already fresh. -/
def genW : Nat → String := fun _ => "bbbb"

/-- The generator `genW` immediately produces a sid unused in `repoW`. -/
def hgenW : ∃ n, repoGet repoW (genW n) = none := ⟨0, rfl⟩

/-- C1: the claim states that `login` returns `WrongCredentials` exactly
when the computed digest of the supplied password does not match the stored
hash, and proceeds to the TOTP check and token issuance when it matches.
The code does the opposite: with the stored hash equal to the digest of the
supplied password the flow returns `WrongCredentials`, and with a
non-matching password it proceeds and issues a session token.  This
contradicts the claim (and the file's own tests). -/
theorem login_password_check_inverted :
    login envSeed "username@server.domain" "abcABC123&" "" = .error Err.wrongCredentials ∧
    login envSeed "username@server.domain" "fake" "" = .ok "signed.jwt" := by
  constructor <;> rfl

/-- C2: the claim states that a user with no TOTP secret (secret repository
reports `NotFound`) logs in successfully, the absent secret being a no-op
success.  The code instead short-circuits the `NotFound` through `and_then`
and folds it to `Unauthorized` via `map_err`, so login fails even when the
password step passes.  This contradicts the claim and the file's own test
`login_by_email_should_not_fail`. -/
theorem login_absent_totp_secret_rejected :
    login envNoSecret "username@server.domain" "abcABC123&" "" = .error Err.unauthorized := by
  rfl

/-- C8: when the stored user's `credentials.password` is `None`, the
password condition evaluates to `false` for every supplied password string
(the `map ... unwrap_or_default` chain yields `false`), so `login` never
rejects at the password step and its result is identical for any two
supplied passwords. -/
theorem login_independent_of_password_when_hash_absent (env : LoginEnv)
    (ident p1 p2 totp : String)
    (h : ∀ u, lookupUser env ident = .ok u → u.credentials.password = none) :
    (∀ u pwd, u.credentials.password = none → passwordRejects env u pwd = false) ∧
    login env ident p1 totp = login env ident p2 totp := by
  constructor
  · intro u pwd hu
    unfold passwordRejects
    rw [hu]
    cases env.passwordTryFrom pwd <;> rfl
  · unfold login
    cases hl : lookupUser env ident with
    | error e => rfl
    | ok user =>
      have hn : user.credentials.password = none := h user hl
      have h1 : passwordRejects env user p1 = false := by
        unfold passwordRejects
        rw [hn]
        cases env.passwordTryFrom p1 <;> rfl
      have h2 : passwordRejects env user p2 = false := by
        unfold passwordRejects
        rw [hn]
        cases env.passwordTryFrom p2 <;> rfl
      dsimp only
      rw [h1, h2]

/-- Witness for C8 at a concrete environment: the stored user of
`envNoSecret` has no password hash, so two different supplied passwords
give the same login result. -/
theorem login_independent_of_password_when_hash_absent_witness :
    login envNoSecret "username@server.domain" "aaa" "" =
      login envNoSecret "username@server.domain" "bbb" "" :=
  (login_independent_of_password_when_hash_absent envNoSecret
    "username@server.domain" "aaa" "bbb" ""
    (fun u hu => by
      rw [show lookupUser envNoSecret "username@server.domain" =
            .ok { id := 123,
                  credentials := { email := "username@server.domain", password := none } } from rfl] at hu
      cases hu
      rfl)).2

/-- C4: for every token whose decoded kind is not `Session` the
`logout_strategy` fails with `InvalidToken` and performs no revocation:
the effect trace is empty, so the cache/liveness state is untouched. -/
theorem logout_non_session_token_invalid_no_revoke (env : LoginEnv) (token : String)
    (t : SessionToken) (hdec : env.decode token = .ok t) (hk : t.knd.isSession = false) :
    logoutStrategy env token = (.error Err.invalidToken, []) := by
  simp [logoutStrategy, hdec, hk]

/-- Witness for C4: a decoder yielding a `Verification`-kind token makes
`logout_strategy` fail with `InvalidToken` and call nothing. -/
theorem logout_non_session_token_invalid_no_revoke_witness :
    logoutStrategy envLogoutW "sometoken" = (.error Err.invalidToken, []) :=
  logout_non_session_token_invalid_no_revoke envLogoutW "sometoken"
    { jti := "jti1", sub := "123", knd := TokenKind.verification } rfl rfl

/-- C5: a token of the wrong kind is rejected with `WrongToken` before any
side effect: `signup_with_token` on a non-`Verification` token, and
`enable_mfa_with_token` / `disable_mfa_with_token` on a non-`Session`
token, all return `WrongToken` with a trace containing only the claims
resolution itself — no cache read, no repository write, no revocation. -/
theorem wrong_kind_token_rejected_without_side_effects (env : UserAppEnv)
    (token : String) (method : MfaMethod) (password : String) (otp : Option String) :
    (∀ claims, env.claims token = .ok claims → claims.payload.kind.isVerification = false →
       signupWithToken env token = (.error Err.wrongToken, [Effect.claimsTok token])) ∧
    (∀ claims, env.claims token = .ok claims → claims.payload.kind.isSession = false →
       enableMfaWithToken env token method password otp =
         (.error Err.wrongToken, [Effect.claimsTok token])) ∧
    (∀ claims, env.claims token = .ok claims → claims.payload.kind.isSession = false →
       disableMfaWithToken env token method password otp =
         (.error Err.wrongToken, [Effect.claimsTok token])) := by
  refine ⟨?_, ?_, ?_⟩ <;> intro claims hc hk <;>
    simp [signupWithToken, enableMfaWithToken, disableMfaWithToken, hc, hk]

/-- Witness for C5: with claims of kind `Reset` all three flows reject
with `WrongToken` and no effect beyond the claims resolution. -/
theorem wrong_kind_token_rejected_without_side_effects_witness :
    signupWithToken envUWrongKind "tok" = (.error Err.wrongToken, [Effect.claimsTok "tok"]) ∧
    enableMfaWithToken envUWrongKind "tok" MfaMethod.totp "pwd" none =
      (.error Err.wrongToken, [Effect.claimsTok "tok"]) ∧
    disableMfaWithToken envUWrongKind "tok" MfaMethod.totp "pwd" none =
      (.error Err.wrongToken, [Effect.claimsTok "tok"]) :=
  ⟨(wrong_kind_token_rejected_without_side_effects envUWrongKind "tok" MfaMethod.totp "pwd" none).1
      _ rfl rfl,
   (wrong_kind_token_rejected_without_side_effects envUWrongKind "tok" MfaMethod.totp "pwd" none).2.1
      _ rfl rfl,
   (wrong_kind_token_rejected_without_side_effects envUWrongKind "tok" MfaMethod.totp "pwd" none).2.2
      _ rfl rfl⟩

/-- C3: in `signup_with_token` the revocation strictly precedes every
durable write: when the revocation fails no user is created and no
`user_created` event is emitted, and whenever a create or emit effect
appears in the trace the revocation has succeeded and its effect appears
strictly earlier. -/
theorem signup_with_token_revokes_before_durable_writes (env : UserAppEnv) (token : String) :
    (∀ claims e, env.claims token = .ok claims → env.revoke claims = .error e →
       Effect.createUser ∉ (signupWithToken env token).2 ∧
       Effect.emitUserCreated ∉ (signupWithToken env token).2) ∧
    (Effect.createUser ∈ (signupWithToken env token).2 →
       ∃ claims, env.claims token = .ok claims ∧ env.revoke claims = .ok () ∧
         appearsBefore Effect.revokeTok Effect.createUser (signupWithToken env token).2) ∧
    (Effect.emitUserCreated ∈ (signupWithToken env token).2 →
       ∃ claims, env.claims token = .ok claims ∧ env.revoke claims = .ok () ∧
         appearsBefore Effect.revokeTok Effect.emitUserCreated (signupWithToken env token).2) := by
  cases hc : env.claims token with
  | error e0 =>
    refine ⟨?_, ?_, ?_⟩
    · intro claims e h1 _
      exact Except.noConfusion h1
    · intro hmem
      simp [signupWithToken, hc] at hmem
    · intro hmem
      simp [signupWithToken, hc] at hmem
  | ok claims0 =>
    cases hv : claims0.payload.kind.isVerification with
    | false =>
      refine ⟨?_, ?_, ?_⟩
      · intro claims e h1 _
        simp [signupWithToken, hc, hv]
      · intro hmem
        simp [signupWithToken, hc, hv] at hmem
      · intro hmem
        simp [signupWithToken, hc, hv] at hmem
    | true =>
      cases hcf : env.cacheFindCreds claims0.payload.subject with
      | error e1 =>
        refine ⟨?_, ?_, ?_⟩
        · intro claims e h1 _
          simp [signupWithToken, hc, hv, hcf]
        · intro hmem
          simp [signupWithToken, hc, hv, hcf] at hmem
        · intro hmem
          simp [signupWithToken, hc, hv, hcf] at hmem
      | ok creds =>
        cases hr : env.revoke claims0 with
        | error e2 =>
          refine ⟨?_, ?_, ?_⟩
          · intro claims e h1 _
            simp [signupWithToken, hc, hv, hcf, hr]
          · intro hmem
            simp [signupWithToken, hc, hv, hcf, hr] at hmem
          · intro hmem
            simp [signupWithToken, hc, hv, hcf, hr] at hmem
        | ok u =>
          cases u
          cases hcr : env.createUser creds.intoUser with
          | error e3 =>
            refine ⟨?_, ?_, ?_⟩
            · intro claims e h1 h2
              cases h1
              rw [hr] at h2
              exact Except.noConfusion h2
            · intro _
              refine ⟨claims0, rfl, hr, ?_⟩
              simp only [signupWithToken, hc, hv, hcf, hr, signup, hcr]
              exact ⟨2, 3, by omega, rfl, rfl⟩
            · intro hmem
              simp [signupWithToken, hc, hv, hcf, hr, signup, hcr] at hmem
          | ok uid =>
            cases hem : env.emitUserCreated { creds.intoUser with id := uid } with
            | error e4 =>
              refine ⟨?_, ?_, ?_⟩
              · intro claims e h1 h2
                cases h1
                rw [hr] at h2
                exact Except.noConfusion h2
              · intro _
                refine ⟨claims0, rfl, hr, ?_⟩
                simp only [signupWithToken, hc, hv, hcf, hr, signup, hcr, hem]
                exact ⟨2, 3, by omega, rfl, rfl⟩
              · intro _
                refine ⟨claims0, rfl, hr, ?_⟩
                simp only [signupWithToken, hc, hv, hcf, hr, signup, hcr, hem]
                exact ⟨2, 4, by omega, rfl, rfl⟩
            | ok v =>
              cases v
              refine ⟨?_, ?_, ?_⟩
              · intro claims e h1 h2
                cases h1
                rw [hr] at h2
                exact Except.noConfusion h2
              · intro _
                refine ⟨claims0, rfl, hr, ?_⟩
                simp only [signupWithToken, hc, hv, hcf, hr, signup, hcr, hem]
                exact ⟨2, 3, by omega, rfl, rfl⟩
              · intro _
                refine ⟨claims0, rfl, hr, ?_⟩
                simp only [signupWithToken, hc, hv, hcf, hr, signup, hcr, hem]
                exact ⟨2, 4, by omega, rfl, rfl⟩

/-- Witness for C3: with a failing revocation no create and no emit effect
occurs. -/
theorem signup_with_token_revokes_before_durable_writes_witness :
    Effect.createUser ∉ (signupWithToken envURevokeFail "tok").2 ∧
    Effect.emitUserCreated ∉ (signupWithToken envURevokeFail "tok").2 :=
  (signup_with_token_revokes_before_durable_writes envURevokeFail "tok").1
    _ Err.invalidToken rfl rfl

/-- C6: the email-lookup dispatch of `verify_credentials`: a successful
lookup (whatever the found user, MFA-enabled or not) yields
`AlreadyExists`; a lookup error other than `NotFound` is propagated
unchanged; only on `NotFound` does the flow proceed to hash the password
and (when hashing succeeds) issue a `Verification` token for the
credentials fingerprint. -/
theorem verify_credentials_lookup_dispatch (env : UserAppEnv) (email pwd : String) :
    (∀ u, env.findByEmail email = .ok u →
       (verifyCredentials env email pwd).1 = .error Err.alreadyExists) ∧
    (∀ e, env.findByEmail email = .error e → e.isNotFound = false →
       (verifyCredentials env email pwd).1 = .error e) ∧
    (∀ e, env.findByEmail email = .error e → e.isNotFound = true →
       Effect.hashPassword ∈ (verifyCredentials env email pwd).2 ∧
       ∀ h, hashPwd env pwd = .ok h →
         Effect.issueToken TokenKind.verification (env.credsHash { email := email, password := h }) ∈
           (verifyCredentials env email pwd).2) := by
  refine ⟨?_, ?_, ?_⟩
  · intro u hu
    simp [verifyCredentials, hu]
  · intro e he hnf
    simp [verifyCredentials, he, hnf]
  · intro e he hnf
    constructor
    · cases hh : hashPwd env pwd with
      | error e2 => simp [verifyCredentials, he, hnf, hh]
      | ok h =>
        cases hi : env.issue TokenKind.verification (env.credsHash { email := email, password := h }) with
        | error e2 => simp [verifyCredentials, he, hnf, hh, hi]
        | ok claims =>
          cases hs : env.cacheSaveCreds (env.credsHash { email := email, password := h })
              { email := email, password := h } claims.payload.timeout with
          | error e2 => simp [verifyCredentials, he, hnf, hh, hi, hs]
          | ok v => simp [verifyCredentials, he, hnf, hh, hi, hs]
    · intro h hh
      cases hi : env.issue TokenKind.verification (env.credsHash { email := email, password := h }) with
      | error e2 => simp [verifyCredentials, he, hnf, hh, hi]
      | ok claims =>
        cases hs : env.cacheSaveCreds (env.credsHash { email := email, password := h })
            { email := email, password := h } claims.payload.timeout with
        | error e2 => simp [verifyCredentials, he, hnf, hh, hi, hs]
        | ok v => simp [verifyCredentials, he, hnf, hh, hi, hs]

/-- Witness for C6: the dispatch at three concrete environments — an
existing (MFA-enabled) user gives `AlreadyExists`, a `Debug` lookup error
propagates unchanged, and a `NotFound` lookup proceeds to hashing. -/
theorem verify_credentials_lookup_dispatch_witness :
    (verifyCredentials envUFound "username@server.domain" "abcABC123&").1 = .error Err.alreadyExists ∧
    (verifyCredentials envUDbgErr "username@server.domain" "abcABC123&").1 = .error Err.debug ∧
    Effect.hashPassword ∈ (verifyCredentials envUBase "username@server.domain" "abcABC123&").2 :=
  ⟨(verify_credentials_lookup_dispatch envUFound "username@server.domain" "abcABC123&").1 _ rfl,
   (verify_credentials_lookup_dispatch envUDbgErr "username@server.domain" "abcABC123&").2.1
      Err.debug rfl rfl,
   ((verify_credentials_lookup_dispatch envUBase "username@server.domain" "abcABC123&").2.2
      Err.notFound rfl rfl).1⟩

/-- C7: the exact effect order of `verify_credentials`.  Every run's trace
is one of the prefixes of
lookup → hash → issue(Verification, fingerprint) → cache-save(fingerprint,
payload timeout) → mail(token), cut at the first failing collaborator; in
particular the token is issued before the pending credentials are saved in
the cache under the fingerprint key with the issued payload's timeout, and
the verification mail is sent last. -/
theorem verify_credentials_effect_order (env : UserAppEnv) (email pwd : String) :
    (∃ u, env.findByEmail email = .ok u ∧
       verifyCredentials env email pwd = (.error Err.alreadyExists, [Effect.findByEmail email])) ∨
    (∃ e, env.findByEmail email = .error e ∧ e.isNotFound = false ∧
       verifyCredentials env email pwd = (.error e, [Effect.findByEmail email])) ∨
    (∃ e e2, env.findByEmail email = .error e ∧ e.isNotFound = true ∧
       hashPwd env pwd = .error e2 ∧
       verifyCredentials env email pwd =
         (.error e2, [Effect.findByEmail email, Effect.hashPassword])) ∨
    (∃ e h e2, env.findByEmail email = .error e ∧ e.isNotFound = true ∧
       hashPwd env pwd = .ok h ∧
       env.issue TokenKind.verification (env.credsHash { email := email, password := h }) = .error e2 ∧
       verifyCredentials env email pwd =
         (.error e2,
          [Effect.findByEmail email, Effect.hashPassword,
           Effect.issueToken TokenKind.verification (env.credsHash { email := email, password := h })])) ∨
    (∃ e h claims e2, env.findByEmail email = .error e ∧ e.isNotFound = true ∧
       hashPwd env pwd = .ok h ∧
       env.issue TokenKind.verification (env.credsHash { email := email, password := h }) = .ok claims ∧
       env.cacheSaveCreds (env.credsHash { email := email, password := h })
         { email := email, password := h } claims.payload.timeout = .error e2 ∧
       verifyCredentials env email pwd =
         (.error e2,
          [Effect.findByEmail email, Effect.hashPassword,
           Effect.issueToken TokenKind.verification (env.credsHash { email := email, password := h }),
           Effect.cacheSave (env.credsHash { email := email, password := h }) claims.payload.timeout])) ∨
    (∃ e h claims, env.findByEmail email = .error e ∧ e.isNotFound = true ∧
       hashPwd env pwd = .ok h ∧
       env.issue TokenKind.verification (env.credsHash { email := email, password := h }) = .ok claims ∧
       env.cacheSaveCreds (env.credsHash { email := email, password := h })
         { email := email, password := h } claims.payload.timeout = .ok () ∧
       verifyCredentials env email pwd =
         (env.sendMail email claims.token,
          [Effect.findByEmail email, Effect.hashPassword,
           Effect.issueToken TokenKind.verification (env.credsHash { email := email, password := h }),
           Effect.cacheSave (env.credsHash { email := email, password := h }) claims.payload.timeout,
           Effect.sendMail email claims.token])) := by
  cases hf : env.findByEmail email with
  | ok u =>
    exact Or.inl ⟨u, rfl, by simp [verifyCredentials, hf]⟩
  | error e =>
    cases hnf : e.isNotFound with
    | false =>
      exact Or.inr (Or.inl ⟨e, rfl, hnf, by simp [verifyCredentials, hf, hnf]⟩)
    | true =>
      cases hh : hashPwd env pwd with
      | error e2 =>
        exact Or.inr (Or.inr (Or.inl ⟨e, e2, rfl, hnf, rfl, by simp [verifyCredentials, hf, hnf, hh]⟩))
      | ok h =>
        cases hi : env.issue TokenKind.verification (env.credsHash { email := email, password := h }) with
        | error e2 =>
          exact Or.inr (Or.inr (Or.inr (Or.inl
            ⟨e, h, e2, rfl, hnf, rfl, hi, by simp [verifyCredentials, hf, hnf, hh, hi]⟩)))
        | ok claims =>
          cases hs : env.cacheSaveCreds (env.credsHash { email := email, password := h })
              { email := email, password := h } claims.payload.timeout with
          | error e2 =>
            exact Or.inr (Or.inr (Or.inr (Or.inr (Or.inl
              ⟨e, h, claims, e2, rfl, hnf, rfl, hi, hs,
               by simp [verifyCredentials, hf, hnf, hh, hi, hs]⟩))))
          | ok v =>
            cases v
            exact Or.inr (Or.inr (Or.inr (Or.inr (Or.inr
              ⟨e, h, claims, rfl, hnf, rfl, hi, hs,
               by simp [verifyCredentials, hf, hnf, hh, hi, hs]⟩))))

/-- A match of `\b[A-Fa-f0-9]{64}\b` at one position is a decomposition
of the remaining input into a 64-hex run and a rest with the right
boundaries. -/
theorem hexRunAt_iff (w : Char → Bool) (prev : Option Char) (l : List Char) :
    hexRunAt w prev l = true ↔
      ∃ run post : List Char, l = run ++ post ∧ run.length = 64 ∧
        run.all isHexDigitChar = true ∧
        (wordOpt w prev != wordOpt w run.head?) = true ∧
        (wordOpt w run.getLast? != wordOpt w post.head?) = true := by
  constructor
  · intro h
    simp only [hexRunAt, Bool.and_eq_true, beq_iff_eq] at h
    obtain ⟨⟨⟨hlen, hall⟩, hb1⟩, hb2⟩ := h
    exact ⟨l.take 64, l.drop 64, (List.take_append_drop 64 l).symm, hlen, hall, hb1, hb2⟩
  · rintro ⟨run, post, rfl, hlen, hall, hb1, hb2⟩
    have ht : (run ++ post).take 64 = run := by
      rw [← hlen]
      exact List.take_left run post
    have hd : (run ++ post).drop 64 = post := by
      rw [← hlen]
      exact List.drop_left run post
    simp only [hexRunAt, ht, hd, Bool.and_eq_true, beq_iff_eq]
    exact ⟨⟨⟨hlen, hall⟩, hb1⟩, hb2⟩

/-- Consuming one character shifts the preceding-character accumulator of
the scan. -/
theorem lastChar_cons (prev : Option Char) (c : Char) (pre : List Char) :
    lastChar prev (c :: pre) = lastChar (some c) pre := by
  cases pre with
  | nil => rfl
  | cons d pre' =>
    unfold lastChar
    rw [List.getLast?_cons_cons]
    cases hx : (d :: pre').getLast? with
    | some y => rfl
    | none => exact absurd hx (by simp)

/-- At the start of the string the accumulator is just the prefix's last
character. -/
theorem lastChar_none (pre : List Char) : lastChar none pre = pre.getLast? := by
  unfold lastChar
  cases hx : pre.getLast? with
  | some y => rfl
  | none => rfl

/-- The position-by-position scan agrees with the decomposition
characterisation at every accumulator value, whatever the word class. -/
theorem hashMatchAux_iff (w : Char → Bool) (l : List Char) : ∀ prev : Option Char,
    hashMatchAux w prev l = true ↔ hasRunFrom w prev l := by
  induction l with
  | nil =>
    intro prev
    simp only [hashMatchAux, hasRunFrom]
    constructor
    · intro h
      exact absurd h (by simp)
    · rintro ⟨pre, run, post, heq, hlen, -, -, -⟩
      have h0 : 0 = pre.length + (run.length + post.length) := by
        simpa using congrArg List.length heq
      omega
  | cons c rest ih =>
    intro prev
    rw [show hashMatchAux w prev (c :: rest) =
          (hexRunAt w prev (c :: rest) || hashMatchAux w (some c) rest) from rfl]
    rw [Bool.or_eq_true, hexRunAt_iff, ih (some c)]
    unfold hasRunFrom
    constructor
    · rintro (⟨run, post, heq, hlen, hall, hb1, hb2⟩ |
              ⟨pre, run, post, heq, hlen, hall, hb1, hb2⟩)
      · exact ⟨[], run, post, by simpa using heq, hlen, hall, hb1, hb2⟩
      · refine ⟨c :: pre, run, post, by simp [heq], hlen, hall, ?_, hb2⟩
        rwa [lastChar_cons]
    · rintro ⟨pre, run, post, heq, hlen, hall, hb1, hb2⟩
      cases pre with
      | nil =>
        exact Or.inl ⟨run, post, by simpa using heq, hlen, hall, hb1, hb2⟩
      | cons c' pre' =>
        have hc : c = c' ∧ rest = pre' ++ run ++ post := by
          simpa using heq
        refine Or.inr ⟨pre', run, post, hc.2, hlen, hall, ?_, hb2⟩
        rw [← lastChar_cons prev c pre', hc.1]
        exact hb1

/-- C9: for every word-character predicate `w` — in particular the regex
crate's Unicode word class, which decides `\b` — `check_pwd` accepts a
password string if and only if the string contains a
word-boundary-delimited run of exactly 64 hexadecimal characters (the
unanchored pattern of `REGEX_HASH256`); every string without such a run
is rejected with `ERR_PWD_FORMAT` whatever characters it mixes, and every
string embedding such a run is accepted. -/
theorem check_pwd_iff_hash256_run (w : Char → Bool) (s : String) :
    check_pwd w s = .ok () ↔ containsHash256Run w s := by
  have h1 : check_pwd w s = .ok () ↔ hashMatchAux w none s.data = true := by
    unfold check_pwd regexHash256IsMatch
    cases h : hashMatchAux w none s.data <;> simp [h]
  rw [h1, hashMatchAux_iff w s.data none]
  unfold hasRunFrom containsHash256Run
  constructor
  · rintro ⟨pre, run, post, heq, hlen, hall, hb1, hb2⟩
    rw [lastChar_none] at hb1
    exact ⟨pre, run, post, heq, hlen, List.all_eq_true.mp hall,
           bne_iff_ne.mp hb1, bne_iff_ne.mp hb2⟩
  · rintro ⟨pre, run, post, heq, hlen, hall, hb1, hb2⟩
    refine ⟨pre, run, post, heq, hlen, List.all_eq_true.mpr hall, ?_, bne_iff_ne.mpr hb2⟩
    rw [lastChar_none]
    exact bne_iff_ne.mpr hb1

/-- C10: `InMemorySessionRepository::save` preserves the uniqueness
invariant: it returns `AlreadyExists` when a session with the same sid or
the same user email is already stored, and otherwise inserts the session
under a freshly generated sid that was not previously a key of the map,
returning the stored entry for that sid, with the invariant preserved. -/
theorem in_memory_session_repository_save_unique
    (repo : SessionRepo) (session : StoredSession) (gen : Nat → String)
    (hgen : ∃ n, repoGet repo (gen n) = none) (hinv : repoInv repo) :
    (((repoGet repo session.sid).isSome = true ∨
        repo.any (fun kv => sessionHasEmail kv.2 session.user.email) = true) →
       InMemorySessionRepository.save repo session gen hgen = .error ALREADY_EXISTS) ∧
    ((repoGet repo session.sid).isSome = false →
     repo.any (fun kv => sessionHasEmail kv.2 session.user.email) = false →
       InMemorySessionRepository.save repo session gen hgen =
         .ok (freshSid repo gen hgen, { session with sid := freshSid repo gen hgen },
              (freshSid repo gen hgen, { session with sid := freshSid repo gen hgen }) :: repo) ∧
       repoGet repo (freshSid repo gen hgen) = none ∧
       repoGet ((freshSid repo gen hgen, { session with sid := freshSid repo gen hgen }) :: repo)
           (freshSid repo gen hgen) =
         some { session with sid := freshSid repo gen hgen } ∧
       repoInv ((freshSid repo gen hgen, { session with sid := freshSid repo gen hgen }) :: repo)) := by
  constructor
  · rintro (h | h)
    · simp [InMemorySessionRepository.save, h]
    · cases hs : (repoGet repo session.sid).isSome <;>
        simp [InMemorySessionRepository.save, hs, h]
  · intro h1 h2
    have hfresh : repoGet repo (freshSid repo gen hgen) = none := Nat.find_spec hgen
    have hkeys : ∀ kv ∈ repo, kv.1 ≠ freshSid repo gen hgen := by
      have hnone : ∀ (a : String) (b : StoredSession), (a, b) ∈ repo →
          ¬a = freshSid repo gen hgen := by
        simpa [repoGet, Option.map_eq_none] using hfresh
      intro kv hkv
      exact hnone kv.1 kv.2 hkv
    have hemails : ∀ kv ∈ repo, kv.2.user.email ≠ session.user.email := by
      intro kv hkv
      have := List.any_eq_false.mp h2 kv hkv
      simpa [sessionHasEmail] using this
    refine ⟨by simp [InMemorySessionRepository.save, h1, h2], hfresh, ?_, ?_, ?_⟩
    · simp [repoGet, List.find?_cons_of_pos]
    · refine List.pairwise_cons.mpr ⟨?_, hinv.1⟩
      intro kv hkv
      exact ⟨fun hh => hkeys kv hkv hh.symm, fun hh => hemails kv hkv hh.symm⟩
    · intro kv hkv
      rcases List.mem_cons.mp hkv with hkv | hkv
      · rw [hkv]
      · exact hinv.2 kv hkv

/-- Witness for C10 at a concrete one-entry repository: the fresh-session
branch inserts under the generated sid, which was not a key before. -/
theorem in_memory_session_repository_save_unique_witness :
    InMemorySessionRepository.save repoW sessW genW hgenW =
      .ok (freshSid repoW genW hgenW, { sessW with sid := freshSid repoW genW hgenW },
           (freshSid repoW genW hgenW, { sessW with sid := freshSid repoW genW hgenW }) :: repoW) ∧
    repoGet repoW (freshSid repoW genW hgenW) = none :=
  have hinvW : repoInv repoW := ⟨List.pairwise_singleton _ _, by
    intro kv hkv
    simp only [repoW, List.mem_singleton] at hkv
    rw [hkv]⟩
  have h := (in_memory_session_repository_save_unique repoW sessW genW hgenW hinvW).2 rfl rfl
  ⟨h.1, h.2.1⟩
